import Mathlib

/-!
Verification of the QField sync server (reconciliation and statistics engines).

The repository contains several revisions of the same Express server.  The two
reconciliation implementations that the specification describes are:

* the in-memory merge in `src/server.js` (`app.post('/api/sync')`, lines
  168-281; the same code appears in `src/unnamed/part_000` and twice in
  `src/unnamed/part_001`), and
* the PostgreSQL merge in `src/server.js` (second `app.post('/api/sync')`,
  lines 1490-1648).

The statistics aggregator is `calculateProjectStatistics` (`src/server.js`
lines 28-111, `src/unnamed/part_001` lines 2646-2741) and the date expander is
the date-shape dispatch inside `aggregateDataByDate` together with
`expandDateRange` (`src/unnamed/part_001` lines 2578-2644).

JavaScript values are embedded as follows: strings are `String` with the
JS truthiness `s || t` modelled by `jsOrS` (empty string is falsy); numeric
area fields are `ℚ` with `x || y` modelled by `jsOrQ` (0 is falsy; `NaN`
and non-numeric payloads are outside the model); `JSON.stringify` equality
of two records of identical shape is structural equality.  String library
operations (`split`, `trim`, `startsWith`, `Number` coercion) are
re-implemented structurally over `String.data` so that every definition
evaluates inside the kernel.
-/

/-- JS `a || b` for strings: `""` is falsy, every other string truthy. -/
def jsOrS (a b : String) : String :=
  if a = "" then b else a

/-- JS `a || b` for the numeric area field: `0` is falsy, all other rationals truthy. -/
def jsOrQ (a b : ℚ) : ℚ :=
  if a = 0 then b else a

/-- Char-list splitter with fuel (structural recursion so the kernel can
evaluate it).  With `fuel = s.length` it computes exactly JS
`String.prototype.split` with a non-empty separator. -/
def csplitAux (sep : List Char) : Nat → List Char → List (List Char)
  | 0, s => [s]
  | _ + 1, [] => [[]]
  | fuel + 1, c :: rest =>
    if sep.isPrefixOf (c :: rest) then
      [] :: csplitAux sep fuel ((c :: rest).drop sep.length)
    else
      match csplitAux sep fuel rest with
      | [] => [[c]]
      | g :: gs => (c :: g) :: gs

/-- JS `s.split(sep)` for a non-empty separator. -/
def jsSplit (s sep : String) : List String :=
  (csplitAux sep.data s.data.length s.data).map (fun l => ⟨l⟩)

/-- JS `s.trim()`: drop whitespace from both ends. -/
def jsTrim (s : String) : String :=
  ⟨((s.data.dropWhile Char.isWhitespace).reverse.dropWhile Char.isWhitespace).reverse⟩

/-- JS `s.startsWith(pre)`. -/
def jsStartsWith (pre s : String) : Bool :=
  pre.data.isPrefixOf s.data

/-- JS `s.replace(pre, '')` in the only situation the source uses it: the
pattern is known to be a prefix of `s`, so replacing its first occurrence is
dropping `n` leading characters. -/
def jsDrop (n : Nat) (s : String) : String :=
  ⟨s.data.drop n⟩

/-- Decimal digit-string parser used to model JS `Number(...)` on the
date components that occur in `DD.MM.YYYY` dates. -/
def digitsToNat? (l : List Char) : Option Nat :=
  if l = [] then none
  else if l.all Char.isDigit then
    some (l.foldl (fun n c => 10 * n + (c.toNat - 48)) 0)
  else none

/-- JS `Number(s)` coercion on the component shapes that can occur between
the dots of a date expression: surrounding whitespace is ignored, the empty
string is `0`, and an optionally signed digit string is its integer value.
Strings outside this integer fragment (e.g. exponent or hexadecimal
notation, which cannot occur inside a `DD.MM.YYYY` date) are treated as
`NaN`, modelled as `none`; an invalid `Date` built from `NaN` makes the
`expandDateRange` while-loop run zero times. -/
def jsNum (s : String) : Option Int :=
  let t := jsTrim s
  match t.data with
  | [] => some 0
  | '-' :: rest => (digitsToNat? rest).map (fun k => -(Int.ofNat k))
  | '+' :: rest => (digitsToNat? rest).map Int.ofNat
  | l => (digitsToNat? l).map Int.ofNat

/-- A stored polygon record as the in-memory server keeps it
(`src/server.js` lines 218-246): `flaeche_ha` numeric, the four text fields,
and the `lastUpdate` / `source` stamps. -/
structure Polygon where
  id : String
  flaeche_ha : ℚ
  bearbeitet : String
  datum : String
  farbe : String
  geometry : String
  lastUpdate : String
  source : String
deriving DecidableEq, Repr

/-- An incoming batch entry.  Absent JS fields are the falsy defaults
(`""` / `0`).  The three extra area fields model the alternative field
names probed by the PostgreSQL branch (`src/server.js` lines 1527-1531). -/
structure IncomingPolygon where
  id : String
  flaeche_ha : ℚ
  bearbeitet : String
  datum : String
  farbe : String
  geometry : String
  flaeche_ha_umlaut : ℚ
  area : ℚ
  flaeche_ha_cap : ℚ
deriving DecidableEq, Repr

/-- In-memory merge of one incoming entry onto the existing stored record
(`src/server.js` lines 218-227): every field is `incoming || existing ||`
default, and the stamps are rewritten unconditionally
(`lastUpdate = timestamp || now`, `source = source || 'unknown'`). -/
def mergeRecord (timestamp now source : String) (inc : IncomingPolygon) (ex : Polygon) : Polygon :=
  { id := inc.id
    flaeche_ha := jsOrQ inc.flaeche_ha (jsOrQ ex.flaeche_ha 0)
    bearbeitet := jsOrS inc.bearbeitet (jsOrS ex.bearbeitet "")
    datum := jsOrS inc.datum (jsOrS ex.datum "")
    farbe := jsOrS inc.farbe (jsOrS ex.farbe "")
    geometry := jsOrS inc.geometry (jsOrS ex.geometry "")
    lastUpdate := jsOrS timestamp now
    source := jsOrS source "unknown" }

/-- In-memory creation of a new record from an incoming entry
(`src/server.js` lines 237-246). -/
def newRecord (timestamp now source : String) (inc : IncomingPolygon) : Polygon :=
  { id := inc.id
    flaeche_ha := jsOrQ inc.flaeche_ha 0
    bearbeitet := jsOrS inc.bearbeitet ""
    datum := jsOrS inc.datum ""
    farbe := jsOrS inc.farbe ""
    geometry := jsOrS inc.geometry ""
    lastUpdate := jsOrS timestamp now
    source := jsOrS source "unknown" }

/-- Lookup in `existingMap` (`src/server.js` lines 203-208): a JS object
keyed by `id`, so a later record with the same id overwrites an earlier one;
hence the last matching element wins.  The map is only ever queried with a
non-empty id. -/
def findById (l : List Polygon) (i : String) : Option Polygon :=
  l.reverse.find? (fun p => p.id == i)

/-- One iteration of the in-memory merge loop (`src/server.js` lines
211-249).  Returns `none` when the entry is skipped for lack of an id,
otherwise the stored record together with the created flag and the
counted-as-updated flag (`JSON.stringify(merged) !== JSON.stringify(existing)`
modelled as structural inequality). -/
def processOne (existingData : List Polygon) (timestamp now source : String)
    (inc : IncomingPolygon) : Option (Polygon × Bool × Bool) :=
  if inc.id = "" then none
  else
    match findById existingData inc.id with
    | some ex =>
        let merged := mergeRecord timestamp now source inc ex
        some (merged, false, decide (merged ≠ ex))
    | none => some (newRecord timestamp now source inc, true, false)

/-- Result of one in-memory sync: the `newPolygons` / `updatedPolygons`
counters and the final `mergedData` list. -/
structure SyncResult where
  newCount : Nat
  updatedCount : Nat
  mergedData : List Polygon
deriving DecidableEq, Repr

/-- The whole in-memory reconciliation for one batch (`src/server.js` lines
197-260): process each incoming entry in order against the map built from
the pre-batch data, then append every existing record whose id does not
occur in the batch (`existingData.forEach` with `data.find`, lines 251-257). -/
def syncMerge (existingData : List Polygon) (batch : List IncomingPolygon)
    (timestamp now source : String) : SyncResult :=
  let results := batch.filterMap (processOne existingData timestamp now source)
  let carried := existingData.filter
    (fun ex => (batch.find? (fun inc => inc.id == ex.id)).isNone)
  { newCount := (results.filter (fun r => r.2.1)).length
    updatedCount := (results.filter (fun r => r.2.2)).length
    mergedData := results.map (fun r => r.1) ++ carried }

/-- A polygon row as stored by the PostgreSQL implementation (columns
touched by the sync handler, `src/server.js` lines 1598-1611). -/
structure PgRow where
  flaeche_ha : ℚ
  bearbeitet : String
  datum : String
  farbe : String
  geometry : String
  source : String
deriving DecidableEq, Repr

/-- The flexible area-field fallback chain (`src/server.js` lines 1527-1531):
`flaeche_ha || Fläche_ha || area || Flaeche_ha || 0`. -/
def pgFlaeche (inc : IncomingPolygon) : ℚ :=
  jsOrQ inc.flaeche_ha (jsOrQ inc.flaeche_ha_umlaut (jsOrQ inc.area (jsOrQ inc.flaeche_ha_cap 0)))

/-- The PostgreSQL update branch for an existing row (`src/server.js` lines
1539-1594): the area column is rewritten whenever the resolved incoming area
is positive; each text column only when the stored value is falsy and the
incoming one truthy; when any column is queued the `source` column is also
stamped and the record counted as updated (the returned flag). -/
def pgUpdate (source : String) (inc : IncomingPolygon) (ex : PgRow) : PgRow × Bool :=
  let fl := pgFlaeche inc
  let updF := decide (0 < fl)
  let updB := decide (ex.bearbeitet = "" ∧ inc.bearbeitet ≠ "")
  let updD := decide (ex.datum = "" ∧ inc.datum ≠ "")
  let updC := decide (ex.farbe = "" ∧ inc.farbe ≠ "")
  let updG := decide (ex.geometry = "" ∧ inc.geometry ≠ "")
  if updF || updB || updD || updC || updG then
    ({ flaeche_ha := if updF then fl else ex.flaeche_ha
       bearbeitet := if updB then inc.bearbeitet else ex.bearbeitet
       datum := if updD then inc.datum else ex.datum
       farbe := if updC then inc.farbe else ex.farbe
       geometry := if updG then inc.geometry else ex.geometry
       source := jsOrS source "unknown" }, true)
  else (ex, false)

/-- The PostgreSQL insert branch (`src/server.js` lines 1598-1614). -/
def pgInsert (source : String) (inc : IncomingPolygon) : PgRow :=
  { flaeche_ha := pgFlaeche inc
    bearbeitet := jsOrS inc.bearbeitet ""
    datum := jsOrS inc.datum ""
    farbe := jsOrS inc.farbe ""
    geometry := jsOrS inc.geometry ""
    source := jsOrS source "unknown" }

/-- One iteration of the PostgreSQL sync loop (`src/server.js` lines
1512-1616) over a store of rows keyed by `polygon_id` for one project.
`SELECT` inside the transaction sees rows inserted earlier in the same
batch, so the store is threaded through the fold. -/
def pgSyncStep (source : String) (st : List (String × PgRow) × Nat × Nat)
    (inc : IncomingPolygon) : List (String × PgRow) × Nat × Nat :=
  if inc.id = "" then st
  else
    match st.1.find? (fun kv => kv.1 == inc.id) with
    | some kv =>
        let u := pgUpdate source inc kv.2
        (st.1.map (fun kv' => if kv'.1 == inc.id then (kv'.1, u.1) else kv'),
          st.2.1, st.2.2 + (if u.2 then 1 else 0))
    | none => (st.1 ++ [(inc.id, pgInsert source inc)], st.2.1 + 1, st.2.2)

/-- The whole PostgreSQL reconciliation for one batch: final store,
`newCount`, `updatedCount`. -/
def pgSync (store : List (String × PgRow)) (batch : List IncomingPolygon)
    (source : String) : List (String × PgRow) × Nat × Nat :=
  batch.foldl (pgSyncStep source) (store, 0, 0)

/-- Days since 1970-01-01 of the civil date `(y, m, d)` with `m ∈ [1,12]`
(standard proleptic-Gregorian day-number algorithm; this is how a JS `Date`
constructed at local midnight behaves under day arithmetic and ordering). -/
def daysFromCivil (y m d : Int) : Int :=
  let y2 := if m ≤ 2 then y - 1 else y
  let era := y2.fdiv 400
  let yoe := y2 - era * 400
  let mp := (m + 9).emod 12
  let doy := (153 * mp + 2).fdiv 5 + d - 1
  let doe := yoe * 365 + yoe.fdiv 4 - yoe.fdiv 100 + doy
  era * 146097 + doe - 719468

/-- Inverse of `daysFromCivil`: the civil `(year, month, day)` of a day
number, used to model `getFullYear` / `getMonth` / `getDate`. -/
def civilFromDays (z : Int) : Int × Int × Int :=
  let z2 := z + 719468
  let era := z2.fdiv 146097
  let doe := z2 - era * 146097
  let yoe := (doe - doe.fdiv 1460 + doe.fdiv 36524 - doe.fdiv 146096).fdiv 365
  let y := yoe + era * 400
  let doy := doe - (365 * yoe + yoe.fdiv 4 - yoe.fdiv 100)
  let mp := (5 * doy + 2).fdiv 153
  let d := doy - (153 * mp + 2).fdiv 5 + 1
  let m := if mp < 10 then mp + 3 else mp - 9
  (if m ≤ 2 then y + 1 else y, m, d)

/-- JS `new Date(year, monthIndex, day)` as a day number: years 0-99 are
offset to 1900-1999, an out-of-range month index rolls the year over, and
the day is added relative to the first of the month. -/
def jsMakeDay (y m0 d : Int) : Int :=
  let y2 := if 0 ≤ y ∧ y ≤ 99 then y + 1900 else y
  daysFromCivil (y2 + m0.fdiv 12) (m0.emod 12 + 1) 1 + (d - 1)

/-- JS `String(n).padStart(2, '0')`. -/
def pad2 (n : Int) : String :=
  let s := toString n
  if s.length < 2 then "0" ++ s else s

/-- Formatting of the loop variable inside `expandDateRange`
(`src/unnamed/part_001` lines 2636-2639): `DD.MM.YYYY` with zero-padded day
and month. -/
def formatDate (z : Int) : String :=
  let c := civilFromDays z
  pad2 c.2.2 ++ "." ++ pad2 c.2.1 ++ "." ++ toString c.1

/-- The while-loop of `expandDateRange` (`src/unnamed/part_001` lines
2634-2641): starting at `cur`, push the formatted day and step one calendar
day while `cur ≤ endDay`.  Structural recursion on a fuel that the caller
sets to the exact iteration count. -/
def expandLoopFuel : Nat → Int → Int → List String
  | 0, _, _ => []
  | fuel + 1, endDay, cur =>
    if cur ≤ endDay then formatDate cur :: expandLoopFuel fuel endDay (cur + 1)
    else []

/-- `expandDateRange(startDateStr, endDateStr)` (`src/unnamed/part_001`
lines 2622-2644): if either endpoint does not split into exactly three
dot-separated parts the start token alone is returned; otherwise two JS
dates are built from `(parts[2], parts[1]-1, parts[0])` and every day from
start to end inclusive is formatted.  A `NaN` component gives an invalid
date, whose comparison is always false, so the loop body never runs. -/
def expandDateRange (startDateStr endDateStr : String) : List String :=
  match jsSplit startDateStr ".", jsSplit endDateStr "." with
  | [ds, ms, ys], [de, me, ye] =>
    match jsNum ys, jsNum ms, jsNum ds, jsNum ye, jsNum me, jsNum de with
    | some y1, some m1, some d1, some y2, some m2, some d2 =>
      let startDay := jsMakeDay y1 (m1 - 1) d1
      let endDay := jsMakeDay y2 (m2 - 1) d2
      expandLoopFuel (endDay + 1 - startDay).toNat endDay startDay
    | _, _, _, _, _, _ => []
  | _, _ => [startDateStr]

/-- The date-shape dispatch of `aggregateDataByDate`
(`src/unnamed/part_001` lines 2584-2598): a datum containing `' bis '` is a
closed range handed to `expandDateRange`; otherwise the open forms
`ab DATE` / `bis DATE` and the plain form each yield one token. -/
def expandDates (datum : String) : List String :=
  match jsSplit datum " bis " with
  | startDate :: endDate :: _ => expandDateRange (jsTrim startDate) (jsTrim endDate)
  | _ =>
    if jsStartsWith "ab " datum then [jsTrim (jsDrop 3 datum)]
    else if jsStartsWith "bis " datum then [jsTrim (jsDrop 4 datum)]
    else [jsTrim datum]

/-- One cell of the `dateMap[date][farbe]` nested object built by
`aggregateDataByDate` (`src/unnamed/part_001` lines 2603-2616); `present`
models whether the JS object already has the key. -/
structure DayCell where
  present : Bool
  worker : String
  area : ℚ
  count : ℚ
deriving Repr

/-- The body of the inner `dates.forEach` (`src/unnamed/part_001` lines
2603-2616): create the cell on first touch and add the per-date area and
fractional count. -/
def touchAdd (farbe worker : String) (areaPerDate countFrac : ℚ)
    (m : String → String → DayCell) (date : String) : String → String → DayCell :=
  fun d c =>
    if d = date ∧ c = farbe then
      let cell0 := m d c
      let cell := if cell0.present then cell0 else ⟨true, worker, 0, 0⟩
      { cell with area := cell.area + areaPerDate, count := cell.count + countFrac }
    else m d c

/-- Processing of one polygon by `aggregateDataByDate`
(`src/unnamed/part_001` lines 2581-2617): incomplete records are skipped,
otherwise the datum is expanded and the area distributed evenly over the
resulting dates. -/
def aggStep (m : String → String → DayCell) (p : Polygon) : String → String → DayCell :=
  if p.datum = "" ∨ p.bearbeitet = "" ∨ p.farbe = "" then m
  else
    let dates := expandDates p.datum
    let areaPerDate := p.flaeche_ha / (dates.length : ℚ)
    dates.foldl (touchAdd p.farbe p.bearbeitet areaPerDate (1 / (dates.length : ℚ))) m

/-- `aggregateDataByDate(polygonData)` (`src/unnamed/part_001` lines
2578-2620) as the final `dateMap`, represented as a total function with
`present = false` on untouched keys. -/
def aggregateDataByDate (polygonData : List Polygon) : String → String → DayCell :=
  polygonData.foldl aggStep (fun _ _ => ⟨false, "", 0, 0⟩)

/-- Project metadata as used by the statistics
(`projectData.info.colorWorkers`); a color code with no assigned worker maps
to `""` (JS `undefined` is falsy). -/
structure ProjectInfo where
  colorWorkers : String → String

/-- The completion predicate used throughout the statistics:
`p.bearbeitet && p.datum && p.farbe` are all truthy. -/
def isCompleted (p : Polygon) : Bool :=
  p.bearbeitet != "" && p.datum != "" && p.farbe != ""

/-- `reduce((sum, p) => sum + (parseFloat(p.flaeche_ha) || 0), 0)` over the
model, where the area field is already numeric. -/
def sumArea (l : List Polygon) : ℚ :=
  (l.map (fun p => p.flaeche_ha)).sum

/-- One entry of `workerStats` (`src/server.js` lines 62-79; the
presentation-only `chronology` member carries no invariant claimed here and
is omitted). -/
structure WorkerStat where
  name : String
  color : String
  area : ℚ
  polygonCount : Nat
  percentage : ℚ

/-- The statistics record returned by `calculateProjectStatistics`
(`src/server.js` lines 99-110; the presentation-only `dailyStats` and
`sunburstData` members are omitted). -/
structure ProjectStats where
  totalPolygons : Nat
  completedPolygons : Nat
  completionPercentage : ℚ
  totalArea : ℚ
  completedArea : ℚ
  completionAreaPercentage : ℚ
  workerStats : List (String × WorkerStat)
  participantCount : Nat

/-- `calculateProjectStatistics(projectData)` (`src/server.js` lines
28-111): totals, completion percentages guarded by a zero test on the
denominator, and one `workerStats` entry per color code of
`['r','g','b','y']` that has a `colorWorkers` assignment. -/
def calculateProjectStatistics (info : ProjectInfo) (data : List Polygon) : ProjectStats :=
  let totalPolygons := data.length
  let completedPolygons := (data.filter isCompleted).length
  let totalArea := sumArea data
  let completedArea := sumArea (data.filter isCompleted)
  let workerStats := ["r", "g", "b", "y"].filterMap (fun colorCode =>
    if info.colorWorkers colorCode = "" then none
    else
      let workerPolygons := data.filter
        (fun p => p.farbe == colorCode && p.bearbeitet != "" && p.datum != "")
      let workerArea := sumArea workerPolygons
      some (colorCode,
        { name := info.colorWorkers colorCode
          color := colorCode
          area := workerArea
          polygonCount := workerPolygons.length
          percentage := if 0 < totalArea then workerArea / totalArea * 100 else 0 }))
  { totalPolygons := totalPolygons
    completedPolygons := completedPolygons
    completionPercentage :=
      if 0 < totalPolygons then (completedPolygons : ℚ) / (totalPolygons : ℚ) * 100 else 0
    totalArea := totalArea
    completedArea := completedArea
    completionAreaPercentage :=
      if 0 < totalArea then completedArea / totalArea * 100 else 0
    workerStats := workerStats
    participantCount := workerStats.length }

/-! ### Concrete sample records used by counterexamples and witnesses -/

/-- A fully filled stored record. -/
def exAlice : Polygon := ⟨"p1", 1, "Alice", "01.03.2025", "r", "G", "T1", "s1"⟩

/-- An incoming entry for the same id carrying no data at all. -/
def incEmpty : IncomingPolygon := ⟨"p1", 0, "", "", "", "", 0, 0, 0⟩

/-- An incoming entry that only renames the contributor. -/
def incBob : IncomingPolygon := { incEmpty with bearbeitet := "Bob" }

/-- A stored record whose area is 0.0001 ha. -/
def exTinyArea : Polygon := { exAlice with flaeche_ha := 1 / 10000 }

/-- An incoming entry whose area is 0.0002 ha. -/
def incSmallArea : IncomingPolygon := { incEmpty with flaeche_ha := 2 / 10000 }

/-- An incoming entry with area 1 ha and nothing else. -/
def incUnitArea : IncomingPolygon := { incEmpty with flaeche_ha := 1 }

/-- An incoming entry for an unrelated id. -/
def incOther : IncomingPolygon := { incEmpty with id := "zz" }

/-- A PostgreSQL row whose contributor field is still empty. -/
def pgRowNoName : PgRow := ⟨1, "", "01.01.2025", "r", "", "s0"⟩

/-- An incoming entry that fills in a contributor name. -/
def incNeu : IncomingPolygon := { incEmpty with bearbeitet := "Neu" }

/-- A completed record of 10 ha. -/
def pCompleted : Polygon := ⟨"a", 10, "A", "01.03.2025", "r", "", "", ""⟩

/-- An incomplete record with (invalid) negative area. -/
def pNegative : Polygon := ⟨"b", -6, "", "", "", "", "", ""⟩

/-- A completed record whose datum is a three-day range carrying 3 ha. -/
def pRange3 : Polygon := ⟨"a", 3, "A", "01.03.2025 bis 03.03.2025", "r", "", "", ""⟩

/-- Project metadata with no contributor assignment at all. -/
def infoNone : ProjectInfo := ⟨fun _ => ""⟩

/-- Project metadata assigning only the color `r`. -/
def infoR : ProjectInfo := ⟨fun c => if c = "r" then "Anna" else ""⟩

/-! ### Basic facts about the JS truthiness helpers and the merge fields -/

theorem jsOrQ_zero_right (a : ℚ) : jsOrQ a 0 = a := by
  unfold jsOrQ
  split_ifs with h
  · exact h.symm
  · rfl

theorem jsOrS_empty_right (a : String) : jsOrS a "" = a := by
  unfold jsOrS
  split_ifs with h
  · exact h.symm
  · rfl

theorem jsOrQ_idem (a b : ℚ) : jsOrQ a (jsOrQ a b) = jsOrQ a b := by
  unfold jsOrQ
  split_ifs <;> rfl

theorem jsOrS_idem (a b : String) : jsOrS a (jsOrS a b) = jsOrS a b := by
  unfold jsOrS
  split_ifs <;> rfl

theorem mergeRecord_flaeche (t n s : String) (inc : IncomingPolygon) (ex : Polygon) :
    (mergeRecord t n s inc ex).flaeche_ha =
      if inc.flaeche_ha = 0 then ex.flaeche_ha else inc.flaeche_ha := by
  show jsOrQ inc.flaeche_ha (jsOrQ ex.flaeche_ha 0) = _
  rw [jsOrQ_zero_right]
  rfl

theorem mergeRecord_bearbeitet (t n s : String) (inc : IncomingPolygon) (ex : Polygon) :
    (mergeRecord t n s inc ex).bearbeitet =
      if inc.bearbeitet = "" then ex.bearbeitet else inc.bearbeitet := by
  show jsOrS inc.bearbeitet (jsOrS ex.bearbeitet "") = _
  rw [jsOrS_empty_right]
  rfl

theorem mergeRecord_datum (t n s : String) (inc : IncomingPolygon) (ex : Polygon) :
    (mergeRecord t n s inc ex).datum =
      if inc.datum = "" then ex.datum else inc.datum := by
  show jsOrS inc.datum (jsOrS ex.datum "") = _
  rw [jsOrS_empty_right]
  rfl

theorem mergeRecord_farbe (t n s : String) (inc : IncomingPolygon) (ex : Polygon) :
    (mergeRecord t n s inc ex).farbe =
      if inc.farbe = "" then ex.farbe else inc.farbe := by
  show jsOrS inc.farbe (jsOrS ex.farbe "") = _
  rw [jsOrS_empty_right]
  rfl

theorem pgUpdate_flag (s : String) (inc : IncomingPolygon) (ex : PgRow) :
    (pgUpdate s inc ex).2 = true ↔
      (0 < pgFlaeche inc ∨ (ex.bearbeitet = "" ∧ inc.bearbeitet ≠ "") ∨
       (ex.datum = "" ∧ inc.datum ≠ "") ∨ (ex.farbe = "" ∧ inc.farbe ≠ "") ∨
       (ex.geometry = "" ∧ inc.geometry ≠ "")) := by
  simp only [pgUpdate]
  split
  · next h =>
      simp only [true_iff]
      simpa [Bool.or_eq_true, decide_eq_true_eq, or_assoc] using h
  · next h =>
      simp only [Bool.false_eq_true, false_iff]
      intro hcon
      apply h
      simpa [Bool.or_eq_true, decide_eq_true_eq, or_assoc] using hcon

theorem pgUpdate_flaeche (s : String) (inc : IncomingPolygon) (ex : PgRow) :
    ((pgUpdate s inc ex).1).flaeche_ha =
      if 0 < pgFlaeche inc then pgFlaeche inc else ex.flaeche_ha := by
  simp only [pgUpdate]
  split
  · simp only [decide_eq_true_eq]
  · next h =>
      split_ifs with hF
      · exact absurd (by simp [hF]) h
      · rfl

theorem pgUpdate_bearbeitet (s : String) (inc : IncomingPolygon) (ex : PgRow) :
    ((pgUpdate s inc ex).1).bearbeitet =
      if ex.bearbeitet = "" ∧ inc.bearbeitet ≠ "" then inc.bearbeitet else ex.bearbeitet := by
  simp only [pgUpdate]
  split
  · simp only [decide_eq_true_eq]
  · next h =>
      split_ifs with hB
      · exact absurd (by simp [hB]) h
      · rfl

theorem pgUpdate_datum (s : String) (inc : IncomingPolygon) (ex : PgRow) :
    ((pgUpdate s inc ex).1).datum =
      if ex.datum = "" ∧ inc.datum ≠ "" then inc.datum else ex.datum := by
  simp only [pgUpdate]
  split
  · simp only [decide_eq_true_eq]
  · next h =>
      split_ifs with hD
      · exact absurd (by simp [hD]) h
      · rfl

theorem pgUpdate_farbe (s : String) (inc : IncomingPolygon) (ex : PgRow) :
    ((pgUpdate s inc ex).1).farbe =
      if ex.farbe = "" ∧ inc.farbe ≠ "" then inc.farbe else ex.farbe := by
  simp only [pgUpdate]
  split
  · simp only [decide_eq_true_eq]
  · next h =>
      split_ifs with hC
      · exact absurd (by simp [hC]) h
      · rfl
/-- Unfolding of one in-memory sync of a single incoming entry against the
single stored record it matches. -/
theorem syncMerge_singleton (t n s : String) (inc : IncomingPolygon) (ex : Polygon)
    (h1 : inc.id ≠ "") (h2 : ex.id = inc.id) :
    syncMerge [ex] [inc] t n s =
      ⟨0, if mergeRecord t n s inc ex = ex then 0 else 1, [mergeRecord t n s inc ex]⟩ := by
  have hbeq : (ex.id == inc.id) = true := by simpa [beq_iff_eq] using h2
  have hbeq2 : (inc.id == ex.id) = true := by
    simpa [beq_iff_eq] using h2.symm
  by_cases hme : mergeRecord t n s inc ex = ex <;>
    simp [syncMerge, processOne, findById, h1, hbeq, hbeq2, List.find?, hme]
/-! ### Claims C1, C2, C9: per-field overwrite policy -/

/-- C1 counterexample: in the in-memory merge a non-empty stored
contributor name is overwritten by a different non-empty incoming one, so
the fill-if-empty invariant fails as stated for the stored record set. -/
theorem c1_counterexample :
    exAlice.bearbeitet = "Alice" ∧ exAlice.bearbeitet ≠ "" ∧ incBob.id = exAlice.id ∧
    (syncMerge [exAlice] [incBob] "T2" "N" "s1").mergedData.map (fun p => p.bearbeitet)
      = ["Bob"] ∧ ("Bob" : String) ≠ "Alice" := by
  decide

/-- C1 amended: the PostgreSQL merge obeys fill-if-empty for the three text
fields (a stored text field changes only from empty to a non-empty incoming
value), while the in-memory merge instead always lets a non-empty incoming
value overwrite and keeps the stored value only when the incoming one is
empty. -/
theorem c1_fill_if_empty_amended :
    (∀ (s : String) (inc : IncomingPolygon) (ex : PgRow),
      (((pgUpdate s inc ex).1).bearbeitet ≠ ex.bearbeitet →
        ex.bearbeitet = "" ∧ inc.bearbeitet ≠ "" ∧
          ((pgUpdate s inc ex).1).bearbeitet = inc.bearbeitet) ∧
      (((pgUpdate s inc ex).1).datum ≠ ex.datum →
        ex.datum = "" ∧ inc.datum ≠ "" ∧ ((pgUpdate s inc ex).1).datum = inc.datum) ∧
      (((pgUpdate s inc ex).1).farbe ≠ ex.farbe →
        ex.farbe = "" ∧ inc.farbe ≠ "" ∧ ((pgUpdate s inc ex).1).farbe = inc.farbe)) ∧
    (∀ (t n s : String) (inc : IncomingPolygon) (ex : Polygon),
      (mergeRecord t n s inc ex).bearbeitet
          = (if inc.bearbeitet = "" then ex.bearbeitet else inc.bearbeitet) ∧
      (mergeRecord t n s inc ex).datum
          = (if inc.datum = "" then ex.datum else inc.datum) ∧
      (mergeRecord t n s inc ex).farbe
          = (if inc.farbe = "" then ex.farbe else inc.farbe)) := by
  constructor
  · intro s inc ex
    refine ⟨?_, ?_, ?_⟩
    · rw [pgUpdate_bearbeitet]
      split_ifs with h
      · exact fun _ => ⟨h.1, h.2, rfl⟩
      · intro hne
        exact absurd rfl hne
    · rw [pgUpdate_datum]
      split_ifs with h
      · exact fun _ => ⟨h.1, h.2, rfl⟩
      · intro hne
        exact absurd rfl hne
    · rw [pgUpdate_farbe]
      split_ifs with h
      · exact fun _ => ⟨h.1, h.2, rfl⟩
      · intro hne
        exact absurd rfl hne
  · intro t n s inc ex
    exact ⟨mergeRecord_bearbeitet t n s inc ex, mergeRecord_datum t n s inc ex,
      mergeRecord_farbe t n s inc ex⟩

/-- C1 witness: the amended theorem applied to a concrete PostgreSQL row
whose contributor field is empty and an incoming entry that fills it. -/
theorem c1_witness :
    pgRowNoName.bearbeitet = "" ∧ incNeu.bearbeitet ≠ "" ∧
      ((pgUpdate "s0" incNeu pgRowNoName).1).bearbeitet = incNeu.bearbeitet :=
  (c1_fill_if_empty_amended.1 "s0" incNeu pgRowNoName).1 (by decide)

/-- C2 counterexample: stored area 0.0001 and incoming area 0.0002 differ by
exactly 1e-4, not by more, yet the in-memory merge overwrites the stored
value, so the claimed tolerance rule is not what the code does. -/
theorem c2_counterexample :
    |incSmallArea.flaeche_ha - exTinyArea.flaeche_ha| ≤ 1 / 10000 ∧
    (syncMerge [exTinyArea] [incSmallArea] "T2" "N" "s1").mergedData.map
        (fun p => p.flaeche_ha) = [2 / 10000] ∧
    (2 / 10000 : ℚ) ≠ exTinyArea.flaeche_ha := by
  refine ⟨?_, ?_, ?_⟩
  · norm_num [incSmallArea, exTinyArea, incEmpty, exAlice, abs_le]
  · rw [syncMerge_singleton "T2" "N" "s1" incSmallArea exTinyArea (by decide) (by decide)]
    rw [List.map_singleton, mergeRecord_flaeche]
    norm_num [incSmallArea, incEmpty, exTinyArea, exAlice]
  · norm_num [exTinyArea, exAlice]

/-- C2 amended: there is no tolerance comparison; the in-memory merge takes
the incoming area exactly when it is non-zero, and the PostgreSQL merge
rewrites the stored area exactly when the resolved incoming area is
positive. -/
theorem c2_area_authority_amended :
    (∀ (t n s : String) (inc : IncomingPolygon) (ex : Polygon),
      (mergeRecord t n s inc ex).flaeche_ha
        = if inc.flaeche_ha = 0 then ex.flaeche_ha else inc.flaeche_ha) ∧
    (∀ (s : String) (inc : IncomingPolygon) (ex : PgRow),
      ((pgUpdate s inc ex).1).flaeche_ha
        = if 0 < pgFlaeche inc then pgFlaeche inc else ex.flaeche_ha) :=
  ⟨mergeRecord_flaeche, pgUpdate_flaeche⟩

/-- C9: a falsy (zero or absent) incoming area never overwrites the stored
area in either implementation, and a non-zero stored area can never become
zero through a sync update. -/
theorem c9_falsy_area_preserved :
    (∀ (t n s : String) (inc : IncomingPolygon) (ex : Polygon),
      inc.flaeche_ha = 0 → (mergeRecord t n s inc ex).flaeche_ha = ex.flaeche_ha) ∧
    (∀ (s : String) (inc : IncomingPolygon) (ex : PgRow),
      pgFlaeche inc = 0 → ((pgUpdate s inc ex).1).flaeche_ha = ex.flaeche_ha) ∧
    (∀ (t n s : String) (inc : IncomingPolygon) (ex : Polygon),
      ex.flaeche_ha ≠ 0 → (mergeRecord t n s inc ex).flaeche_ha ≠ 0) ∧
    (∀ (s : String) (inc : IncomingPolygon) (ex : PgRow),
      ex.flaeche_ha ≠ 0 → ((pgUpdate s inc ex).1).flaeche_ha ≠ 0) := by
  refine ⟨?_, ?_, ?_, ?_⟩
  · intro t n s inc ex h
    rw [mergeRecord_flaeche]
    simp [h]
  · intro s inc ex h
    rw [pgUpdate_flaeche]
    simp [h]
  · intro t n s inc ex h
    rw [mergeRecord_flaeche]
    split_ifs with h0
    · exact h
    · exact h0
  · intro s inc ex h
    rw [pgUpdate_flaeche]
    split_ifs with h0
    · exact ne_of_gt h0
    · exact h

/-- C9 witness: an empty incoming entry leaves the stored 1 ha untouched and
non-zero in both implementations. -/
theorem c9_witness :
    ((mergeRecord "T2" "N" "s1" incEmpty exAlice).flaeche_ha = exAlice.flaeche_ha ∧
      (mergeRecord "T2" "N" "s1" incEmpty exAlice).flaeche_ha ≠ 0) ∧
    (((pgUpdate "s0" incEmpty pgRowNoName).1).flaeche_ha = pgRowNoName.flaeche_ha ∧
      ((pgUpdate "s0" incEmpty pgRowNoName).1).flaeche_ha ≠ 0) :=
  ⟨⟨c9_falsy_area_preserved.1 "T2" "N" "s1" incEmpty exAlice (by decide),
    c9_falsy_area_preserved.2.2.1 "T2" "N" "s1" incEmpty exAlice (by decide)⟩,
   ⟨c9_falsy_area_preserved.2.1 "s0" incEmpty pgRowNoName (by decide),
    c9_falsy_area_preserved.2.2.2 "s0" incEmpty pgRowNoName (by decide)⟩⟩
theorem pgUpdate_source_of_flag (s : String) (inc : IncomingPolygon) (ex : PgRow) :
    (pgUpdate s inc ex).2 = true → ((pgUpdate s inc ex).1).source = jsOrS s "unknown" := by
  simp only [pgUpdate]
  split
  · intro _
    rfl
  · intro h
    cases h

/-! ### Claim C4: change-gated stamping -/

/-- C4 counterexample: an incoming entry that carries no data at all leaves
every data field of the stored record unchanged, yet the in-memory merge
rewrites the `lastUpdate` stamp to the new batch timestamp and counts the
record as updated. -/
theorem c4_counterexample :
    (syncMerge [exAlice] [incEmpty] "T2" "N" "s1").mergedData.map
        (fun p => (p.flaeche_ha, p.bearbeitet, p.datum, p.farbe, p.geometry))
      = [(exAlice.flaeche_ha, exAlice.bearbeitet, exAlice.datum, exAlice.farbe,
          exAlice.geometry)] ∧
    (syncMerge [exAlice] [incEmpty] "T2" "N" "s1").mergedData.map (fun p => p.lastUpdate)
      = ["T2"] ∧
    exAlice.lastUpdate = "T1" ∧ ("T2" : String) ≠ "T1" ∧
    (syncMerge [exAlice] [incEmpty] "T2" "N" "s1").updatedCount = 1 := by
  decide

/-- C4 amended: the in-memory merge rewrites the `lastUpdate` and `source`
stamps of every matched record unconditionally and counts it as updated
exactly when the rewritten record (stamps included) differs from the stored
one; the PostgreSQL merge stamps `source` and counts the record as updated
exactly when the resolved incoming area is positive or some fill-if-empty
condition fires, even if no stored value actually changes. -/
theorem c4_stamping_amended :
    (∀ (t n s : String) (inc : IncomingPolygon) (ex : Polygon),
      inc.id ≠ "" → ex.id = inc.id →
      (syncMerge [ex] [inc] t n s).mergedData = [mergeRecord t n s inc ex] ∧
      (mergeRecord t n s inc ex).lastUpdate = jsOrS t n ∧
      (mergeRecord t n s inc ex).source = jsOrS s "unknown" ∧
      (syncMerge [ex] [inc] t n s).updatedCount
        = (if mergeRecord t n s inc ex = ex then 0 else 1)) ∧
    (∀ (s : String) (inc : IncomingPolygon) (ex : PgRow),
      ((pgUpdate s inc ex).2 = true ↔
        (0 < pgFlaeche inc ∨ (ex.bearbeitet = "" ∧ inc.bearbeitet ≠ "") ∨
         (ex.datum = "" ∧ inc.datum ≠ "") ∨ (ex.farbe = "" ∧ inc.farbe ≠ "") ∨
         (ex.geometry = "" ∧ inc.geometry ≠ ""))) ∧
      ((pgUpdate s inc ex).2 = true →
        ((pgUpdate s inc ex).1).source = jsOrS s "unknown")) := by
  constructor
  · intro t n s inc ex h1 h2
    rw [syncMerge_singleton t n s inc ex h1 h2]
    exact ⟨rfl, rfl, rfl, rfl⟩
  · intro s inc ex
    exact ⟨pgUpdate_flag s inc ex, pgUpdate_source_of_flag s inc ex⟩

/-- C4 witness: the amended theorem at a concrete record and an empty
incoming entry resubmitted with the original timestamp. -/
theorem c4_witness :
    (syncMerge [exAlice] [incEmpty] "T1" "N" "s1").mergedData
      = [mergeRecord "T1" "N" "s1" incEmpty exAlice] ∧
    (mergeRecord "T1" "N" "s1" incEmpty exAlice).lastUpdate = jsOrS "T1" "N" ∧
    (mergeRecord "T1" "N" "s1" incEmpty exAlice).source = jsOrS "s1" "unknown" ∧
    (syncMerge [exAlice] [incEmpty] "T1" "N" "s1").updatedCount
      = (if mergeRecord "T1" "N" "s1" incEmpty exAlice = exAlice then 0 else 1) :=
  c4_stamping_amended.1 "T1" "N" "s1" incEmpty exAlice (by decide) (by decide)

/-! ### Claim C7: no deletion by omission -/

/-- C7: every stored record whose id does not occur in the incoming batch is
carried over unchanged into the final record set. -/
theorem c7_no_deletion_by_omission (E : List Polygon) (batch : List IncomingPolygon)
    (t n s : String) (ex : Polygon) (hex : ex ∈ E)
    (habs : ∀ inc ∈ batch, inc.id ≠ ex.id) :
    ex ∈ (syncMerge E batch t n s).mergedData := by
  unfold syncMerge
  simp only [List.mem_append]
  right
  rw [List.mem_filter]
  refine ⟨hex, ?_⟩
  simp only [Option.isNone_iff_eq_none, List.find?_eq_none]
  intro inc hinc
  simpa [beq_iff_eq] using habs inc hinc

/-- C7 witness: a stored record survives a batch that only talks about a
different id. -/
theorem c7_witness :
    exAlice ∈ (syncMerge [exAlice] [incOther] "T" "N" "s").mergedData :=
  c7_no_deletion_by_omission [exAlice] [incOther] "T" "N" "s" exAlice
    (by simp) (by decide)

/-! ### Claim C10: fixed four-color contributor cap -/

/-- C10: `workerStats` only ever contains color keys from `r`, `g`, `b`, `y`
that have a `colorWorkers` assignment, so `participantCount` is at most 4
whatever the record data contains. -/
theorem c10_worker_stats_capped (info : ProjectInfo) (data : List Polygon) :
    (calculateProjectStatistics info data).participantCount
        = (calculateProjectStatistics info data).workerStats.length ∧
    (calculateProjectStatistics info data).participantCount ≤ 4 ∧
    ∀ e ∈ (calculateProjectStatistics info data).workerStats,
      (e.1 = "r" ∨ e.1 = "g" ∨ e.1 = "b" ∨ e.1 = "y") ∧ info.colorWorkers e.1 ≠ "" := by
  refine ⟨rfl, ?_, ?_⟩
  · simp only [calculateProjectStatistics]
    exact le_trans (List.length_filterMap_le _ _) (by norm_num)
  · intro e he
    simp only [calculateProjectStatistics, List.mem_filterMap] at he
    obtain ⟨c, hc, hfc⟩ := he
    by_cases hw : info.colorWorkers c = ""
    · rw [if_pos hw] at hfc
      cases hfc
    · rw [if_neg hw] at hfc
      have hec := Option.some.inj hfc
      subst hec
      refine ⟨?_, hw⟩
      simp only [List.mem_cons, List.not_mem_nil, or_false] at hc
      tauto

/-- C10 witness: the cap at a concrete project with one assigned color. -/
theorem c10_witness :
    (calculateProjectStatistics infoR [pCompleted, pNegative]).participantCount ≤ 4 ∧
    ∀ e ∈ (calculateProjectStatistics infoR [pCompleted, pNegative]).workerStats,
      (e.1 = "r" ∨ e.1 = "g" ∨ e.1 = "b" ∨ e.1 = "y") ∧ infoR.colorWorkers e.1 ≠ "" :=
  ⟨(c10_worker_stats_capped infoR [pCompleted, pNegative]).2.1,
   (c10_worker_stats_capped infoR [pCompleted, pNegative]).2.2⟩
/-! ### Claim C8: percentage totality and bounds -/

theorem sumArea_nonneg (l : List Polygon) (h : ∀ p ∈ l, 0 ≤ p.flaeche_ha) :
    0 ≤ sumArea l := by
  apply List.sum_nonneg
  intro x hx
  obtain ⟨p, hp, rfl⟩ := List.mem_map.mp hx
  exact h p hp

theorem sumArea_filter_le (q : Polygon → Bool) (l : List Polygon)
    (h : ∀ p ∈ l, 0 ≤ p.flaeche_ha) : sumArea (l.filter q) ≤ sumArea l := by
  induction l with
  | nil => simp [sumArea]
  | cons a t ih =>
    have ha := h a (List.mem_cons_self a t)
    have ht : ∀ p ∈ t, 0 ≤ p.flaeche_ha := fun p hp => h p (List.mem_cons_of_mem a hp)
    by_cases hq : q a = true
    · simp only [List.filter_cons, hq, if_true, sumArea, List.map_cons, List.sum_cons]
      have := ih ht
      simp only [sumArea] at this
      linarith
    · simp only [List.filter_cons, hq, if_false, sumArea, List.map_cons, List.sum_cons,
        Bool.false_eq_true]
      have := ih ht
      simp only [sumArea] at this
      linarith

theorem pct_bounds (p w : ℚ) (h0 : 0 ≤ p) (h1 : p ≤ w) (h2 : 0 < w) :
    0 ≤ p / w * 100 ∧ p / w * 100 ≤ 100 := by
  have hle : p / w ≤ 1 := (div_le_one h2).mpr h1
  have hge : 0 ≤ p / w := div_nonneg h0 h2.le
  constructor
  · nlinarith
  · nlinarith

theorem pct_guard_bounds (p w : ℚ) (h0 : 0 ≤ p) (h1 : p ≤ w) :
    0 ≤ (if 0 < w then p / w * 100 else 0) ∧ (if 0 < w then p / w * 100 else 0) ≤ 100 := by
  split_ifs with h
  · exact pct_bounds p w h0 h1 h
  · norm_num

theorem pct_guard_bounds_nat (a b : Nat) (h1 : a ≤ b) :
    0 ≤ (if 0 < b then (a : ℚ) / (b : ℚ) * 100 else 0) ∧
      (if 0 < b then (a : ℚ) / (b : ℚ) * 100 else 0) ≤ 100 := by
  split_ifs with h
  · exact pct_bounds _ _ (by positivity) (by exact_mod_cast h1) (by exact_mod_cast h)
  · norm_num

/-- C8 counterexample: the merge performs no validation, so a stored record
with negative area is reachable; with records of area 10 (completed) and -6
(incomplete), the total area is 4 and `completionAreaPercentage` evaluates
to 250, outside the claimed `[0,100]` range. -/
theorem c8_counterexample :
    (calculateProjectStatistics infoNone [pCompleted, pNegative]).completionAreaPercentage
      = 250 ∧
    ¬ ((calculateProjectStatistics infoNone
        [pCompleted, pNegative]).completionAreaPercentage ≤ 100) := by
  have hf : List.filter isCompleted [pCompleted, pNegative] = [pCompleted] := by decide
  have harea : sumArea [pCompleted, pNegative] = 4 := by
    norm_num [sumArea, pCompleted, pNegative]
  have hcarea : sumArea (List.filter isCompleted [pCompleted, pNegative]) = 10 := by
    rw [hf]
    norm_num [sumArea, pCompleted]
  have h : (calculateProjectStatistics infoNone [pCompleted, pNegative]).completionAreaPercentage
      = if 0 < sumArea [pCompleted, pNegative] then
          sumArea (List.filter isCompleted [pCompleted, pNegative])
            / sumArea [pCompleted, pNegative] * 100
        else 0 := rfl
  rw [h, harea, hcarea]
  norm_num

/-- C8 amended: provided every record area is non-negative (the data-model
invariant, which the merge itself does not enforce), all three percentage
families are `100 * part / whole`, lie within `[0,100]`, and are `0`
whenever the denominator is `0`; no division by zero ever happens. -/
theorem c8_percentage_bounds_amended (info : ProjectInfo) (data : List Polygon)
    (hnn : ∀ p ∈ data, 0 ≤ p.flaeche_ha) :
    (0 ≤ (calculateProjectStatistics info data).completionPercentage ∧
      (calculateProjectStatistics info data).completionPercentage ≤ 100) ∧
    (0 ≤ (calculateProjectStatistics info data).completionAreaPercentage ∧
      (calculateProjectStatistics info data).completionAreaPercentage ≤ 100) ∧
    (∀ e ∈ (calculateProjectStatistics info data).workerStats,
      0 ≤ e.2.percentage ∧ e.2.percentage ≤ 100) ∧
    ((calculateProjectStatistics info data).totalPolygons = 0 →
      (calculateProjectStatistics info data).completionPercentage = 0) ∧
    ((calculateProjectStatistics info data).totalArea = 0 →
      (calculateProjectStatistics info data).completionAreaPercentage = 0 ∧
      ∀ e ∈ (calculateProjectStatistics info data).workerStats, e.2.percentage = 0) := by
  refine ⟨?_, ?_, ?_, ?_, ?_⟩
  · exact pct_guard_bounds_nat (List.filter isCompleted data).length data.length
      (List.length_filter_le isCompleted data)
  · exact pct_guard_bounds (sumArea (List.filter isCompleted data)) (sumArea data)
      (sumArea_nonneg _ (fun p hp => hnn p (List.mem_of_mem_filter hp)))
      (sumArea_filter_le _ _ hnn)
  · intro e he
    simp only [calculateProjectStatistics, List.mem_filterMap] at he
    obtain ⟨c, _, hfc⟩ := he
    by_cases hw : info.colorWorkers c = ""
    · rw [if_pos hw] at hfc
      cases hfc
    · rw [if_neg hw] at hfc
      have hec := Option.some.inj hfc
      subst hec
      exact pct_guard_bounds
        (sumArea (List.filter
          (fun p => p.farbe == c && p.bearbeitet != "" && p.datum != "") data))
        (sumArea data)
        (sumArea_nonneg _ (fun p hp => hnn p (List.mem_of_mem_filter hp)))
        (sumArea_filter_le _ _ hnn)
  · intro h0
    have h0n : data.length = 0 := h0
    have h : ¬ (0 < data.length) := by omega
    show (if 0 < data.length then
        ((List.filter isCompleted data).length : ℚ) / (data.length : ℚ) * 100 else 0) = 0
    rw [if_neg h]
  · intro h0
    have h0a : sumArea data = 0 := h0
    have h : ¬ (0 < sumArea data) := by
      rw [h0a]
      exact lt_irrefl 0
    constructor
    · show (if 0 < sumArea data then
          sumArea (List.filter isCompleted data) / sumArea data * 100 else 0) = 0
      rw [if_neg h]
    · intro e he
      simp only [calculateProjectStatistics, List.mem_filterMap] at he
      obtain ⟨c, _, hfc⟩ := he
      by_cases hw : info.colorWorkers c = ""
      · rw [if_pos hw] at hfc
        cases hfc
      · rw [if_neg hw] at hfc
        have hec := Option.some.inj hfc
        subst hec
        show (if 0 < sumArea data then
            sumArea (List.filter
              (fun p => p.farbe == c && p.bearbeitet != "" && p.datum != "") data)
              / sumArea data * 100 else 0) = 0
        rw [if_neg h]

/-- C8 witness: the amended theorem at a one-record project. -/
theorem c8_witness :
    (0 ≤ (calculateProjectStatistics infoNone [pCompleted]).completionPercentage ∧
      (calculateProjectStatistics infoNone [pCompleted]).completionPercentage ≤ 100) ∧
    (0 ≤ (calculateProjectStatistics infoNone [pCompleted]).completionAreaPercentage ∧
      (calculateProjectStatistics infoNone [pCompleted]).completionAreaPercentage ≤ 100) ∧
    (∀ e ∈ (calculateProjectStatistics infoNone [pCompleted]).workerStats,
      0 ≤ e.2.percentage ∧ e.2.percentage ≤ 100) ∧
    ((calculateProjectStatistics infoNone [pCompleted]).totalPolygons = 0 →
      (calculateProjectStatistics infoNone [pCompleted]).completionPercentage = 0) ∧
    ((calculateProjectStatistics infoNone [pCompleted]).totalArea = 0 →
      (calculateProjectStatistics infoNone [pCompleted]).completionAreaPercentage = 0 ∧
      ∀ e ∈ (calculateProjectStatistics infoNone [pCompleted]).workerStats,
        e.2.percentage = 0) :=
  c8_percentage_bounds_amended infoNone [pCompleted] (by
    intro p hp
    simp only [List.mem_singleton] at hp
    subst hp
    norm_num [pCompleted])
/-! ### Claim C5: date expander shapes -/

theorem expandLoopFuel_eq (e : Int) :
    ∀ (n : Nat) (s : Int), (e + 1 - s).toNat = n →
      expandLoopFuel n e s = (List.range n).map (fun i : Nat => formatDate (s + (i : Int))) := by
  intro n
  induction n with
  | zero =>
    intro s _
    rfl
  | succ k ih =>
    intro s h
    have hs : s ≤ e := by omega
    show (if s ≤ e then formatDate s :: expandLoopFuel k e (s + 1) else []) = _
    rw [if_pos hs, ih (s + 1) (by omega), List.range_succ_eq_map]
    rw [List.map_cons, List.map_map]
    congr 1
    · norm_num
    · apply List.map_congr_left
      intro i _
      simp only [Function.comp_apply, Nat.succ_eq_add_one]
      congr 1
      push_cast
      ring

theorem expandDates_of_no_range (d : String) (hlen : (jsSplit d " bis ").length ≤ 1) :
    expandDates d =
      (if jsStartsWith "ab " d then [jsTrim (jsDrop 3 d)]
       else if jsStartsWith "bis " d then [jsTrim (jsDrop 4 d)]
       else [jsTrim d]) := by
  rcases hsp : jsSplit d " bis " with _ | ⟨a, _ | ⟨b, rest⟩⟩
  · simp only [expandDates, hsp]
  · simp only [expandDates, hsp]
  · rw [hsp] at hlen
    simp at hlen

/-- C5 counterexample: an unparseable datum is not mapped to the empty
sequence; it comes back as a one-element sequence holding the raw string. -/
theorem c5_counterexample :
    expandDates "kein Datum" = ["kein Datum"] ∧
      expandDates "kein Datum" ≠ ([] : List String) := by
  constructor
  · decide
  · decide

/-- C5 amended: a single date maps to the one-element sequence of its own
(trimmed) text; `START bis END` with parseable endpoints maps to every
calendar day from START to END inclusive; `ab DATE` and `bis DATE` map to
the single named date; but unparseable plain input maps to the one-element
sequence of the raw trimmed string (not to the empty sequence); a range
whose endpoints do not both split into three dot-parts falls back to the
single start token, and a range with a numerically unparseable (`NaN`)
component yields the empty sequence. -/
theorem c5_date_shapes_amended :
    (∀ d : String, (jsSplit d " bis ").length ≤ 1 → jsStartsWith "ab " d = false →
      jsStartsWith "bis " d = false → expandDates d = [jsTrim d]) ∧
    (∀ d : String, (jsSplit d " bis ").length ≤ 1 → jsStartsWith "ab " d = true →
      expandDates d = [jsTrim (jsDrop 3 d)]) ∧
    (∀ d : String, (jsSplit d " bis ").length ≤ 1 → jsStartsWith "ab " d = false →
      jsStartsWith "bis " d = true → expandDates d = [jsTrim (jsDrop 4 d)]) ∧
    (∀ (d a b : String) (rest : List String), jsSplit d " bis " = a :: b :: rest →
      expandDates d = expandDateRange (jsTrim a) (jsTrim b)) ∧
    (∀ (sStr eStr d1 m1 y1 d2 m2 y2 : String) (D1 M1 Y1 D2 M2 Y2 : Int),
      jsSplit sStr "." = [d1, m1, y1] → jsSplit eStr "." = [d2, m2, y2] →
      jsNum d1 = some D1 → jsNum m1 = some M1 → jsNum y1 = some Y1 →
      jsNum d2 = some D2 → jsNum m2 = some M2 → jsNum y2 = some Y2 →
      expandDateRange sStr eStr
        = (List.range (jsMakeDay Y2 (M2 - 1) D2 + 1 - jsMakeDay Y1 (M1 - 1) D1).toNat).map
            (fun i : Nat => formatDate (jsMakeDay Y1 (M1 - 1) D1 + (i : Int)))) ∧
    (∀ sStr eStr : String,
      (jsSplit sStr ".").length ≠ 3 ∨ (jsSplit eStr ".").length ≠ 3 →
      expandDateRange sStr eStr = [sStr]) ∧
    (∀ (sStr eStr d1 m1 y1 d2 m2 y2 : String),
      jsSplit sStr "." = [d1, m1, y1] → jsSplit eStr "." = [d2, m2, y2] →
      (jsNum d1 = none ∨ jsNum m1 = none ∨ jsNum y1 = none ∨
       jsNum d2 = none ∨ jsNum m2 = none ∨ jsNum y2 = none) →
      expandDateRange sStr eStr = []) := by
  refine ⟨?_, ?_, ?_, ?_, ?_, ?_, ?_⟩
  · intro d hlen hab hbis
    rw [expandDates_of_no_range d hlen]
    simp [hab, hbis]
  · intro d hlen hab
    rw [expandDates_of_no_range d hlen]
    simp [hab]
  · intro d hlen hab hbis
    rw [expandDates_of_no_range d hlen]
    simp [hab, hbis]
  · intro d a b rest hsp
    simp [expandDates, hsp]
  · intro sStr eStr d1 m1 y1 d2 m2 y2 D1 M1 Y1 D2 M2 Y2 hS hE h1 h2 h3 h4 h5 h6
    simp only [expandDateRange, hS, hE, h1, h2, h3, h4, h5, h6]
    exact expandLoopFuel_eq _ _ _ rfl
  · intro sStr eStr h
    rcases hs : jsSplit sStr "." with _ | ⟨a1, _ | ⟨a2, _ | ⟨a3, _ | ⟨a4, t⟩⟩⟩⟩ <;>
      rcases he : jsSplit eStr "." with _ | ⟨b1, _ | ⟨b2, _ | ⟨b3, _ | ⟨b4, u⟩⟩⟩⟩ <;>
      simp only [expandDateRange, hs, he] <;>
      first
        | rfl
        | exact absurd h (by simp [hs, he])
  · intro sStr eStr d1 m1 y1 d2 m2 y2 hS hE h
    simp only [expandDateRange, hS, hE]
    rcases h1 : jsNum y1 with _ | Y1 <;> rcases h2 : jsNum m1 with _ | M1 <;>
      rcases h3 : jsNum d1 with _ | D1 <;> rcases h4 : jsNum y2 with _ | Y2 <;>
      rcases h5 : jsNum m2 with _ | M2 <;> rcases h6 : jsNum d2 with _ | D2 <;>
      simp only [h1, h2, h3, h4, h5, h6] <;>
      first
        | rfl
        | (rcases h with h | h | h | h | h | h <;> simp_all)

/-- C5 witness: the amended range clause at the spec example
`01.03.2025 bis 03.03.2025` together with the concrete three-day value, and
the NaN clause at a range whose start has a non-numeric component. -/
theorem c5_witness :
    expandDateRange "01.03.2025" "03.03.2025"
      = (List.range (jsMakeDay 2025 (3 - 1) 3 + 1 - jsMakeDay 2025 (3 - 1) 1).toNat).map
          (fun i : Nat => formatDate (jsMakeDay 2025 (3 - 1) 1 + (i : Int))) ∧
    expandDates "01.03.2025 bis 03.03.2025"
      = ["01.03.2025", "02.03.2025", "03.03.2025"] ∧
    expandDateRange "01.xx.2025" "03.03.2025" = [] :=
  ⟨c5_date_shapes_amended.2.2.2.2.1 "01.03.2025" "03.03.2025" "01" "03" "2025" "03" "03" "2025"
      1 3 2025 3 3 2025 (by decide) (by decide) (by decide) (by decide) (by decide)
      (by decide) (by decide) (by decide),
    by decide,
    c5_date_shapes_amended.2.2.2.2.2.2 "01.xx.2025" "03.03.2025" "01" "xx" "2025" "03" "03" "2025"
      (by decide) (by decide) (Or.inr (Or.inl (by decide)))⟩
/-! ### Claim C6: even distribution of a range's area conserves the total -/

theorem touchAdd_area (farbe worker : String) (apd cf : ℚ)
    (m : String → String → DayCell) (date : String)
    (hm : ∀ d, (m d farbe).present = false → (m d farbe).area = 0) (d : String) :
    ((touchAdd farbe worker apd cf m date) d farbe).area
      = (m d farbe).area + (if d = date then apd else 0) := by
  simp only [touchAdd]
  split_ifs with h1 h2 h3 <;> simp_all

theorem touchAdd_clean (farbe worker : String) (apd cf : ℚ)
    (m : String → String → DayCell) (date : String)
    (hm : ∀ d, (m d farbe).present = false → (m d farbe).area = 0) :
    ∀ d, ((touchAdd farbe worker apd cf m date) d farbe).present = false →
      ((touchAdd farbe worker apd cf m date) d farbe).area = 0 := by
  intro d
  simp only [touchAdd]
  split_ifs with h1 h2
  · exact fun hfalse => absurd hfalse (by simp [h2])
  · exact fun hfalse => absurd hfalse (by simp)
  · exact hm d

theorem fold_touchAdd_area (farbe worker : String) (apd cf : ℚ) :
    ∀ (dates : List String) (m : String → String → DayCell),
      (∀ d, (m d farbe).present = false → (m d farbe).area = 0) →
      ∀ d, ((dates.foldl (touchAdd farbe worker apd cf) m) d farbe).area
        = (m d farbe).area + (dates.count d : ℚ) * apd := by
  intro dates
  induction dates with
  | nil =>
    intro m _ d
    simp
  | cons date rest ih =>
    intro m hm d
    rw [List.foldl_cons,
      ih (touchAdd farbe worker apd cf m date) (touchAdd_clean farbe worker apd cf m date hm) d,
      touchAdd_area farbe worker apd cf m date hm d]
    by_cases hd : d = date
    · subst hd
      simp [List.count_cons]
      ring
    · have : (date == d) = false := by
        simpa [beq_iff_eq] using fun hc => hd hc.symm
      simp [List.count_cons, this, hd]

/-- C6: for a completed record whose datum expands to a non-empty list of N
days, the daily aggregation credits each listed day with
`count * (area / N)` (so each distinct day with `area / N`), and the per-day
attributions over the distinct days sum back exactly to the record's area
(exact in `ℚ`; the spec's floating tolerance is not needed). -/
theorem c6_range_area_conservation (p : Polygon)
    (hb : p.bearbeitet ≠ "") (hd : p.datum ≠ "") (hf : p.farbe ≠ "")
    (hne : expandDates p.datum ≠ []) :
    (∀ d ∈ expandDates p.datum,
      ((aggregateDataByDate [p]) d p.farbe).area
        = ((expandDates p.datum).count d : ℚ)
            * (p.flaeche_ha / ((expandDates p.datum).length : ℚ))) ∧
    ((expandDates p.datum).dedup.map
        (fun d => ((aggregateDataByDate [p]) d p.farbe).area)).sum = p.flaeche_ha := by
  have hstep : aggregateDataByDate [p]
      = (expandDates p.datum).foldl
          (touchAdd p.farbe p.bearbeitet
            (p.flaeche_ha / ((expandDates p.datum).length : ℚ))
            (1 / ((expandDates p.datum).length : ℚ)))
          (fun _ _ => ⟨false, "", 0, 0⟩) := by
    simp only [aggregateDataByDate, List.foldl_cons, List.foldl_nil, aggStep]
    rw [if_neg (by tauto)]
  have hclean0 : ∀ d, (((fun _ _ => ⟨false, "", 0, 0⟩) :
      String → String → DayCell) d p.farbe).present = false →
      (((fun _ _ => ⟨false, "", 0, 0⟩) : String → String → DayCell) d p.farbe).area = 0 :=
    fun _ _ => rfl
  have harea := fold_touchAdd_area p.farbe p.bearbeitet
    (p.flaeche_ha / ((expandDates p.datum).length : ℚ))
    (1 / ((expandDates p.datum).length : ℚ)) (expandDates p.datum)
    (fun _ _ => ⟨false, "", 0, 0⟩) hclean0
  have hN : ((expandDates p.datum).length : ℚ) ≠ 0 := by
    have : (expandDates p.datum).length ≠ 0 := by
      simpa [List.length_eq_zero] using hne
    exact_mod_cast this
  constructor
  · intro d _
    rw [hstep, harea d]
    simp
  · have hmap : (expandDates p.datum).dedup.map
        (fun d => ((aggregateDataByDate [p]) d p.farbe).area)
      = (expandDates p.datum).dedup.map
          (fun d => ((expandDates p.datum).count d : ℚ)
            * (p.flaeche_ha / ((expandDates p.datum).length : ℚ))) := by
      apply List.map_congr_left
      intro d _
      rw [hstep, harea d]
      simp
    rw [hmap, List.sum_map_mul_right]
    have hsum : ((expandDates p.datum).dedup.map
        (fun d => ((expandDates p.datum).count d : ℚ))).sum
        = ((expandDates p.datum).length : ℚ) := by
      have h1 := List.sum_map_count_dedup_eq_length (expandDates p.datum)
      calc ((expandDates p.datum).dedup.map
            (fun d => ((expandDates p.datum).count d : ℚ))).sum
          = (((expandDates p.datum).dedup.map
              (fun d => (expandDates p.datum).count d)).map (fun k : Nat => (k : ℚ))).sum := by
            rw [List.map_map]
            rfl
        _ = ((((expandDates p.datum).dedup.map
              (fun d => (expandDates p.datum).count d)).sum : Nat) : ℚ) :=
            (Nat.cast_list_sum _).symm
        _ = ((expandDates p.datum).length : ℚ) := by
            rw [h1]
    rw [hsum, mul_comm, div_mul_cancel₀ _ hN]

/-- C6 witness: the spec example `01.03.2025 bis 03.03.2025` with 3 ha gives
1 ha on each of the three days and the three attributions sum to 3. -/
theorem c6_witness :
    (∀ d ∈ expandDates pRange3.datum,
      ((aggregateDataByDate [pRange3]) d pRange3.farbe).area
        = ((expandDates pRange3.datum).count d : ℚ)
            * (pRange3.flaeche_ha / ((expandDates pRange3.datum).length : ℚ))) ∧
    ((expandDates pRange3.datum).dedup.map
        (fun d => ((aggregateDataByDate [pRange3]) d pRange3.farbe).area)).sum
      = pRange3.flaeche_ha :=
  c6_range_area_conservation pRange3 (by decide) (by decide) (by decide) (by decide)
/-! ### Claim C3: idempotence of reconciliation -/

theorem jsOrQ_self (a : ℚ) : jsOrQ a a = a := by
  unfold jsOrQ
  split_ifs <;> rfl

theorem jsOrS_self (a : String) : jsOrS a a = a := by
  unfold jsOrS
  split_ifs <;> rfl

theorem merge_merge (t n s : String) (inc : IncomingPolygon) (ex : Polygon) :
    mergeRecord t n s inc (mergeRecord t n s inc ex) = mergeRecord t n s inc ex := by
  simp [mergeRecord, Polygon.mk.injEq, jsOrQ_zero_right, jsOrS_empty_right,
    jsOrQ_idem, jsOrS_idem]

theorem merge_new (t n s : String) (inc : IncomingPolygon) :
    mergeRecord t n s inc (newRecord t n s inc) = newRecord t n s inc := by
  simp [mergeRecord, newRecord, Polygon.mk.injEq, jsOrQ_zero_right, jsOrS_empty_right,
    jsOrQ_idem, jsOrS_idem, jsOrQ_self, jsOrS_self]

theorem processOne_id (E : List Polygon) (t n s : String) (inc : IncomingPolygon)
    (r : Polygon × Bool × Bool) (h : processOne E t n s inc = some r) :
    r.1.id = inc.id ∧ inc.id ≠ "" := by
  by_cases hid : inc.id = ""
  · rw [processOne, if_pos hid] at h
    cases h
  · refine ⟨?_, hid⟩
    rw [processOne, if_neg hid] at h
    rcases hfind : findById E inc.id with _ | ex <;> rw [hfind] at h
    · have hx := Option.some.inj h
      subst hx
      rfl
    · have hx := Option.some.inj h
      subst hx
      rfl

theorem processOne_stable (E : List Polygon) (t n s : String) (inc : IncomingPolygon)
    (r : Polygon × Bool × Bool) (h : processOne E t n s inc = some r) :
    mergeRecord t n s inc r.1 = r.1 := by
  by_cases hid : inc.id = ""
  · rw [processOne, if_pos hid] at h
    cases h
  · rw [processOne, if_neg hid] at h
    rcases hfind : findById E inc.id with _ | ex <;> rw [hfind] at h
    · have hx := Option.some.inj h
      subst hx
      exact merge_new t n s inc
    · have hx := Option.some.inj h
      subst hx
      exact merge_merge t n s inc ex

theorem processOne_isSome (E : List Polygon) (t n s : String) (inc : IncomingPolygon)
    (hid : inc.id ≠ "") : ∃ r, processOne E t n s inc = some r := by
  unfold processOne
  rw [if_neg hid]
  rcases findById E inc.id with _ | ex
  · exact ⟨_, rfl⟩
  · exact ⟨_, rfl⟩

theorem findById_append (xs ys : List Polygon) (i : String) :
    findById (xs ++ ys) i = ((findById ys i).or (findById xs i)) := by
  unfold findById
  rw [List.reverse_append, List.find?_append]

theorem findById_eq_none (l : List Polygon) (i : String) (h : ∀ p ∈ l, p.id ≠ i) :
    findById l i = none := by
  unfold findById
  rw [List.find?_eq_none]
  intro x hx
  simp only [beq_iff_eq]
  exact h x (List.mem_reverse.mp hx)

theorem mem_processed_ids (E : List Polygon) (t n s : String) (batch : List IncomingPolygon)
    (p : Polygon)
    (hp : p ∈ (batch.filterMap (processOne E t n s)).map (fun x => x.1)) :
    ∃ inc ∈ batch, inc.id ≠ "" ∧ p.id = inc.id := by
  obtain ⟨r, hr, rfl⟩ := List.mem_map.mp hp
  obtain ⟨inc, hinc, hpr⟩ := List.mem_filterMap.mp hr
  obtain ⟨hid, hne⟩ := processOne_id E t n s inc r hpr
  exact ⟨inc, hinc, hne, hid⟩

theorem findById_processed (E : List Polygon) (t n s : String) :
    ∀ (batch : List IncomingPolygon), (batch.map IncomingPolygon.id).Nodup →
      ∀ inc ∈ batch, ∀ r, processOne E t n s inc = some r →
        findById ((batch.filterMap (processOne E t n s)).map (fun x => x.1)) inc.id
          = some r.1 := by
  intro batch
  induction batch with
  | nil =>
    intro _ inc hinc
    cases hinc
  | cons a rest ih =>
    intro hnd inc hinc r hr
    have hnd' : (rest.map IncomingPolygon.id).Nodup := by
      rw [List.map_cons] at hnd
      exact hnd.of_cons
    rcases List.mem_cons.mp hinc with rfl | hmem
    · rw [List.filterMap_cons_some hr, List.map_cons]
      unfold findById
      rw [List.reverse_cons, List.find?_append]
      have hnotmem : inc.id ∉ rest.map IncomingPolygon.id := by
        rw [List.map_cons] at hnd
        exact (List.nodup_cons.mp hnd).1
      have hnone : List.find? (fun p => p.id == inc.id)
          ((rest.filterMap (processOne E t n s)).map (fun x => x.1)).reverse = none := by
        rw [List.find?_eq_none]
        intro x hx
        obtain ⟨inc2, hinc2, _, hid2⟩ :=
          mem_processed_ids E t n s rest x (List.mem_reverse.mp hx)
        simp only [beq_iff_eq]
        intro hcontra
        apply hnotmem
        rw [← hcontra, hid2]
        exact List.mem_map_of_mem IncomingPolygon.id hinc2
      rw [hnone]
      have hid := (processOne_id E t n s inc r hr).1
      simp [Option.none_or, List.find?_cons, hid]
    · have hres := ih hnd' inc hmem r hr
      rcases ha : processOne E t n s a with _ | b
      · rw [List.filterMap_cons_none ha]
        exact hres
      · rw [List.filterMap_cons_some ha, List.map_cons]
        unfold findById at hres ⊢
        rw [List.reverse_cons, List.find?_append, hres]
        rfl

theorem filterMap_congr_map {α β γ : Type} (l : List α) (f : α → Option β)
    (g : α → Option γ) (h : β → γ) (hfg : ∀ a ∈ l, g a = (f a).map h) :
    l.filterMap g = (l.filterMap f).map h := by
  induction l with
  | nil => rfl
  | cons a rest ih =>
    have hrest := ih (fun x hx => hfg x (List.mem_cons_of_mem a hx))
    have ha := hfg a (List.mem_cons_self a rest)
    rcases hfa : f a with _ | b
    · rw [hfa] at ha
      rw [List.filterMap_cons_none ha, List.filterMap_cons_none hfa]
      exact hrest
    · rw [hfa] at ha
      rw [List.filterMap_cons_some ha, List.filterMap_cons_some hfa, List.map_cons]
      rw [hrest]
theorem processOne_second (E : List Polygon) (batch : List IncomingPolygon) (t n s : String)
    (hnd : (batch.map IncomingPolygon.id).Nodup) (inc : IncomingPolygon) (hmem : inc ∈ batch) :
    processOne ((syncMerge E batch t n s).mergedData) t n s inc
      = (processOne E t n s inc).map (fun r => (r.1, false, false)) := by
  by_cases hid : inc.id = ""
  · rw [processOne, if_pos hid, processOne, if_pos hid]
    rfl
  · obtain ⟨r, hr⟩ := processOne_isSome E t n s inc hid
    have hD : (syncMerge E batch t n s).mergedData
        = (batch.filterMap (processOne E t n s)).map (fun x => x.1)
          ++ E.filter (fun ex => (batch.find? (fun i2 => i2.id == ex.id)).isNone) := rfl
    have hC : findById
        (E.filter (fun ex => (batch.find? (fun i2 => i2.id == ex.id)).isNone)) inc.id
        = none := by
      apply findById_eq_none
      intro p hp
      have hmemf := List.mem_filter.mp hp
      intro hcontra
      have hfn : (batch.find? (fun i2 => i2.id == p.id)) = none := by
        simpa [Option.isNone_iff_eq_none] using hmemf.2
      have hnm := List.find?_eq_none.mp hfn inc hmem
      apply hnm
      simp [beq_iff_eq, hcontra]
    have hP := findById_processed E t n s batch hnd inc hmem r hr
    rw [hr]
    rw [processOne, if_neg hid, hD, findById_append, hC, Option.none_or, hP]
    have hstable := processOne_stable E t n s inc r hr
    simp only [hstable]
    simp

/-- C3 counterexample: under the PostgreSQL implementation, re-sending the
identical one-record batch (area 1 ha) results in `updatedCount = 1` on the
second run, not 0, because any positive resolved area re-queues the area
column even when nothing changes. -/
theorem c3_counterexample :
    (pgSync [] [incUnitArea] "s1").2.1 = 1 ∧ (pgSync [] [incUnitArea] "s1").2.2 = 0 ∧
    (pgSync (pgSync [] [incUnitArea] "s1").1 [incUnitArea] "s1").2.2 = 1 ∧
    (pgSync (pgSync [] [incUnitArea] "s1").1 [incUnitArea] "s1").1
      = (pgSync [] [incUnitArea] "s1").1 := by
  decide

/-- C3 amended: the in-memory merge is idempotent as claimed provided the
batch carries pairwise distinct ids and the same resolved timestamp is used
for both runs: the second run returns the same record list and reports zero
created and zero updated records.  (A batch with duplicate ids can break
this, and the PostgreSQL implementation re-reports any record with positive
area as updated on every run.) -/
theorem c3_idempotence_amended (E : List Polygon) (batch : List IncomingPolygon)
    (t n s : String) (hnd : (batch.map IncomingPolygon.id).Nodup) :
    (syncMerge (syncMerge E batch t n s).mergedData batch t n s).mergedData
        = (syncMerge E batch t n s).mergedData ∧
    (syncMerge (syncMerge E batch t n s).mergedData batch t n s).newCount = 0 ∧
    (syncMerge (syncMerge E batch t n s).mergedData batch t n s).updatedCount = 0 := by
  have hres2 : batch.filterMap (processOne ((syncMerge E batch t n s).mergedData) t n s)
      = (batch.filterMap (processOne E t n s)).map (fun r => (r.1, false, false)) :=
    filterMap_congr_map batch (processOne E t n s)
      (processOne ((syncMerge E batch t n s).mergedData) t n s)
      (fun r => (r.1, false, false))
      (fun inc hmem => processOne_second E batch t n s hnd inc hmem)
  have hP2 : ((batch.filterMap (processOne E t n s)).map
        (fun r : Polygon × Bool × Bool => (r.1, false, false))).map
        (fun x : Polygon × Bool × Bool => x.1)
      = (batch.filterMap (processOne E t n s)).map (fun x => x.1) := by
    rw [List.map_map]
    rfl
  have hPnil : ((batch.filterMap (processOne E t n s)).map (fun x => x.1)).filter
      (fun ex => (batch.find? (fun i2 => i2.id == ex.id)).isNone) = [] := by
    rw [List.filter_eq_nil_iff]
    intro p hp
    obtain ⟨inc, hmem, hne, hid⟩ := mem_processed_ids E t n s batch p hp
    rcases hf : batch.find? (fun i2 => i2.id == p.id) with _ | x
    · have := List.find?_eq_none.mp hf inc hmem
      exact absurd (by simp [beq_iff_eq, hid]) this
    · simp [hf]
  have hCq : (E.filter (fun ex => (batch.find? (fun i2 => i2.id == ex.id)).isNone)).filter
        (fun ex => (batch.find? (fun i2 => i2.id == ex.id)).isNone)
      = E.filter (fun ex => (batch.find? (fun i2 => i2.id == ex.id)).isNone) := by
    rw [List.filter_filter]
    congr 1
    funext a
    rw [Bool.and_self]
  refine ⟨?_, ?_, ?_⟩
  · show (batch.filterMap (processOne ((syncMerge E batch t n s).mergedData) t n s)).map
        (fun x => x.1)
      ++ ((syncMerge E batch t n s).mergedData).filter
          (fun ex => (batch.find? (fun i2 => i2.id == ex.id)).isNone)
      = (syncMerge E batch t n s).mergedData
    rw [hres2, hP2]
    show (batch.filterMap (processOne E t n s)).map (fun x => x.1)
      ++ ((batch.filterMap (processOne E t n s)).map (fun x => x.1)
          ++ E.filter (fun ex => (batch.find? (fun i2 => i2.id == ex.id)).isNone)).filter
          (fun ex => (batch.find? (fun i2 => i2.id == ex.id)).isNone)
      = (batch.filterMap (processOne E t n s)).map (fun x => x.1)
          ++ E.filter (fun ex => (batch.find? (fun i2 => i2.id == ex.id)).isNone)
    rw [List.filter_append, hPnil, hCq, List.nil_append]
  · show ((batch.filterMap (processOne ((syncMerge E batch t n s).mergedData) t n s)).filter
        (fun r => r.2.1)).length = 0
    rw [hres2]
    have hnil : ((batch.filterMap (processOne E t n s)).map
        (fun r : Polygon × Bool × Bool => (r.1, false, false))).filter
          (fun r => r.2.1) = [] := by
      rw [List.filter_eq_nil_iff]
      intro x hx
      obtain ⟨r, _, rfl⟩ := List.mem_map.mp hx
      simp
    rw [hnil]
    rfl
  · show ((batch.filterMap (processOne ((syncMerge E batch t n s).mergedData) t n s)).filter
        (fun r => r.2.2)).length = 0
    rw [hres2]
    have hnil : ((batch.filterMap (processOne E t n s)).map
        (fun r : Polygon × Bool × Bool => (r.1, false, false))).filter
          (fun r => r.2.2) = [] := by
      rw [List.filter_eq_nil_iff]
      intro x hx
      obtain ⟨r, _, rfl⟩ := List.mem_map.mp hx
      simp
    rw [hnil]
    rfl

/-- C3 witness: the amended theorem at a concrete one-record batch. -/
theorem c3_witness :
    (syncMerge (syncMerge [exAlice] [incBob] "T" "N" "s").mergedData [incBob] "T" "N" "s").mergedData
        = (syncMerge [exAlice] [incBob] "T" "N" "s").mergedData ∧
    (syncMerge (syncMerge [exAlice] [incBob] "T" "N" "s").mergedData [incBob] "T" "N" "s").newCount
        = 0 ∧
    (syncMerge (syncMerge [exAlice] [incBob] "T" "N" "s").mergedData
        [incBob] "T" "N" "s").updatedCount = 0 :=
  c3_idempotence_amended [exAlice] [incBob] "T" "N" "s" (by decide)
